import Mathlib

/-!
Verification of the Flow Execution Engine of the WhatCEM_Powerchat repository.

The repository ships the persistent data model of the engine in
`shared/db/schema/flows.ts` (tables `flows`, `flowSessions`,
`flowSessionVariables`, `flowStepExecutions`, `followUpSchedules`); the
interpreter, scheduler and expression evaluator themselves are described by the
specification.  Enumerations, record shapes and column defaults below are
embedded from the schema file; the operational definitions are modelled from
the specification and are marked as such in their doc comments.
-/

namespace FlowEngine

/-- Session status, from the `flowSessions.status` column enum
(`shared/db/schema/flows.ts`, line 111). -/
inductive SessionStatus where
  | active
  | waiting
  | paused
  | completed
  | failed
  | abandoned
  | timeout
deriving DecidableEq, Repr

/-- The four terminal statuses of a session (spec section 4.3). -/
def SessionStatus.isTerminal : SessionStatus → Bool
  | .completed => true
  | .failed => true
  | .abandoned => true
  | .timeout => true
  | _ => false

/-- Step execution status, from the `flowStepExecutions.status` column enum
(`shared/db/schema/flows.ts`, line 245). -/
inductive StepStatus where
  | running
  | completed
  | failed
  | skipped
  | waiting
  | timeout
deriving DecidableEq, Repr

/-- Declared variable type, from the `flowSessionVariables.variableType`
column enum (`shared/db/schema/flows.ts`, line 186). -/
inductive VarType where
  | string
  | number
  | boolean
  | object
  | array
deriving DecidableEq, Repr

/-- Variable scope, from the `flowSessionVariables.scope` column enum
(`shared/db/schema/flows.ts`, line 187). -/
inductive VarScope where
  | global
  | flow
  | node
  | user
  | session
deriving DecidableEq, Repr

/-- A session-variable value: a tagged union of
string/number/boolean/object/array, as stored in the `variableValue` jsonb
column and described in spec section 3. -/
inductive VarValue where
  | str : String → VarValue
  | num : Int → VarValue
  | boolean : Bool → VarValue
  | obj : List (String × VarValue) → VarValue
  | arr : List VarValue → VarValue
deriving Repr

/-- A stored jsonb document, the content of a `jsonb` column. -/
inductive JsonValue where
  | jnull : JsonValue
  | jstr : String → JsonValue
  | jnum : Int → JsonValue
  | jbool : Bool → JsonValue
  | jobj : List (String × JsonValue) → JsonValue
  | jarr : List JsonValue → JsonValue
deriving Repr

mutual

/-- Modelled from the spec: serialization of a session-variable value into the
`variableValue` jsonb column (the serializer itself is not in the repository
sources; spec section 8 requires the round-trip). -/
def encodeValue : VarValue → JsonValue
  | .str s => .jstr s
  | .num n => .jnum n
  | .boolean b => .jbool b
  | .obj fs => .jobj (encodeFields fs)
  | .arr xs => .jarr (encodeList xs)

/-- Serialization of the field list of an object-typed value. -/
def encodeFields : List (String × VarValue) → List (String × JsonValue)
  | [] => []
  | (k, v) :: rest => (k, encodeValue v) :: encodeFields rest

/-- Serialization of the element list of an array-typed value. -/
def encodeList : List VarValue → List JsonValue
  | [] => []
  | v :: rest => encodeValue v :: encodeList rest

end

mutual

/-- Modelled from the spec: deserialization of a `variableValue` jsonb
document back into a session-variable value; a jsonb null is not a
representable variable value, so decoding it fails. -/
def decodeValue : JsonValue → Option VarValue
  | .jnull => none
  | .jstr s => some (.str s)
  | .jnum n => some (.num n)
  | .jbool b => some (.boolean b)
  | .jobj fs =>
    match decodeFields fs with
    | some fs2 => some (.obj fs2)
    | none => none
  | .jarr xs =>
    match decodeList xs with
    | some xs2 => some (.arr xs2)
    | none => none

/-- Deserialization of the field list of an object document. -/
def decodeFields : List (String × JsonValue) → Option (List (String × VarValue))
  | [] => some []
  | (k, v) :: rest =>
    match decodeValue v, decodeFields rest with
    | some v2, some rest2 => some ((k, v2) :: rest2)
    | _, _ => none

/-- Deserialization of the element list of an array document. -/
def decodeList : List JsonValue → Option (List VarValue)
  | [] => some []
  | v :: rest =>
    match decodeValue v, decodeList rest with
    | some v2, some rest2 => some (v2 :: rest2)
    | _, _ => none

end

mutual

theorem decodeValue_encodeValue (v : VarValue) :
    decodeValue (encodeValue v) = some v := by
  cases v with
  | str s => rfl
  | num n => rfl
  | boolean b => rfl
  | obj fs => simp [encodeValue, decodeValue, decodeFields_encodeFields fs]
  | arr xs => simp [encodeValue, decodeValue, decodeList_encodeList xs]

theorem decodeFields_encodeFields (fs : List (String × VarValue)) :
    decodeFields (encodeFields fs) = some fs := by
  cases fs with
  | nil => rfl
  | cons hd tl =>
    simp [encodeFields, decodeFields, decodeValue_encodeValue hd.2,
      decodeFields_encodeFields tl]

theorem decodeList_encodeList (xs : List VarValue) :
    decodeList (encodeList xs) = some xs := by
  cases xs with
  | nil => rfl
  | cons hd tl =>
    simp [encodeList, decodeList, decodeValue_encodeValue hd,
      decodeList_encodeList tl]

end

/-- Modelled from the spec: a condition of the small expression language of
section 4.2 — equality, containment, numeric comparison and
variable-existence tests over a named session variable (regex match is left
abstract and is not modelled).  The condition-node handler and its evaluator
are not in the repository sources. -/
inductive Cond where
  | eqStr : String → String → Cond
  | eqNum : String → Int → Cond
  | containsStr : String → String → Cond
  | numGt : String → Int → Cond
  | numLt : String → Int → Cond
  | varExists : String → Cond
  | varNotExists : String → Cond
deriving DecidableEq, Repr

/-- The session variable a condition reads. -/
def Cond.varName : Cond → String
  | .eqStr x _ => x
  | .eqNum x _ => x
  | .containsStr x _ => x
  | .numGt x _ => x
  | .numLt x _ => x
  | .varExists x => x
  | .varNotExists x => x

/-- Whether the condition explicitly tests for absence of the variable
(spec section 4.2: a condition over undefined is a non-match unless it
explicitly tests for absence). -/
def Cond.testsAbsence : Cond → Bool
  | .varNotExists _ => true
  | _ => false

/-- Modelled from the spec: resolution of a variable reference against the
session variables.  An unresolvable reference yields the explicit undefined
sentinel, here `none`, never a crash (spec section 4.2). -/
def resolveVar (vars : List (String × VarValue)) (name : String) : Option VarValue :=
  match vars.find? (fun p => p.1 == name) with
  | some p => some p.2
  | none => none

/-- Modelled from the spec: evaluation of one condition against the resolved
value of its variable (`none` is the undefined sentinel).  A type-mismatched
or undefined value is a non-match, except for the absence test. -/
def evalCondValue : Cond → Option VarValue → Bool
  | .eqStr _ lit, some (.str s) => s == lit
  | .eqNum _ lit, some (.num n) => n == lit
  | .containsStr _ sub, some (.str s) => decide ((s.splitOn sub).length ≠ 1)
  | .numGt _ lit, some (.num n) => decide (lit < n)
  | .numLt _ lit, some (.num n) => decide (n < lit)
  | .varExists _, some _ => true
  | .varNotExists _, none => true
  | _, _ => false

/-- Modelled from the spec: evaluation of a condition against the session
variables, resolving the variable first. -/
def evalCond (vars : List (String × VarValue)) (c : Cond) : Bool :=
  evalCondValue c (resolveVar vars c.varName)

/-- An edge of the flow graph, from the `edges` jsonb column of the `flows`
table (`shared/db/schema/flows.ts`, line 72); an edge with no condition is
the default/else edge of a condition node. -/
structure FlowEdge where
  source : String
  cond : Option Cond
  target : String
deriving DecidableEq, Repr

/-- Whether a conditional edge matches (the default edge never matches here;
spec section 4.2 makes it match last). -/
def edgeMatches (vars : List (String × VarValue)) (e : FlowEdge) : Bool :=
  match e.cond with
  | some c => evalCond vars c
  | none => false

/-- Modelled from the spec: choice of the successor of a condition node —
outgoing edges are evaluated in their declared order, the first matching
edge wins, and the default/else edge, if present, matches last
(spec section 4.2). -/
def pickEdge (vars : List (String × VarValue)) (edges : List FlowEdge) :
    Option String :=
  match edges.find? (edgeMatches vars) with
  | some e => some e.target
  | none =>
    match edges.find? (fun e => e.cond.isNone) with
    | some e => some e.target
    | none => none

/-- A node of the flow graph, from the `nodes` jsonb column of the `flows`
table (`shared/db/schema/flows.ts`, line 71); `maxRetries` is the node's
configured retry bound, defaulting to the `flowStepExecutions.maxRetries`
column default of 0 (line 250). -/
structure FlowNode where
  id : String
  type : String
  maxRetries : Nat
deriving DecidableEq, Repr

/-- One immutable flow version: the graph shape a session executes against
(spec sections 3 and 6, `getFlowVersion` contract). -/
structure FlowVersion where
  nodes : List FlowNode
  edges : List FlowEdge
  entryNodeId : String
deriving DecidableEq, Repr

/-- Node lookup in a flow version. -/
def FlowVersion.findNode (flow : FlowVersion) (nid : String) : Option FlowNode :=
  flow.nodes.find? (fun n => n.id == nid)

/-- The outgoing edges of a node, in their declared order. -/
def FlowVersion.edgesFrom (flow : FlowVersion) (nid : String) : List FlowEdge :=
  flow.edges.filter (fun e => e.source == nid)

/-- One published record of the flow definition source: a (flow id, version)
pair with its graph, per the `flows` table (`version` column, line 73) and
the read-only `getFlowVersion` collaborator of spec section 6. -/
structure FlowRecord where
  flowId : Nat
  version : Nat
  graph : FlowVersion
deriving DecidableEq, Repr

/-- Modelled from the spec: the read-only, immutable-per-version flow
definition source `getFlowVersion(flowId, version)` of section 6. -/
def getFlowVersion (reg : List FlowRecord) (fid v : Nat) : Option FlowVersion :=
  match reg.find? (fun r => r.flowId == fid && r.version == v) with
  | some r => some r.graph
  | none => none

/-- The highest published version of a flow (0 when none). -/
def activeVersion (reg : List FlowRecord) (fid : Nat) : Nat :=
  (reg.filter (fun r => r.flowId == fid)).foldr (fun r acc => max r.version acc) 0

/-- Modelled from the spec: publishing a new version of a flow appends a
fresh record with the next version number and touches no existing record
(flows are immutable per version, spec section 3). -/
def publishVersion (reg : List FlowRecord) (fid : Nat) (g : FlowVersion) :
    List FlowRecord :=
  reg ++ [{ flowId := fid, version := activeVersion reg fid + 1, graph := g }]

/-- The waiting context persisted on suspension, per the `waitingContext`
jsonb column of `flowSessions` (line 120) and the cursor columns
`inputExpectedType`/`timeoutAt` of `flowSessionCursors` (lines 215-217). -/
structure WaitingContext where
  expectedInputType : String
  timeoutAt : Option Nat
deriving DecidableEq, Repr

/-- A side effect performed by a node handler through the collaborators of
spec section 6: a Channel Sender invocation or a webhook/AI call. -/
inductive Effect where
  | send : Nat → String → Effect
  | callHook : String → Effect
deriving DecidableEq, Repr

/-- Modelled from the spec: the `NodeResult` tagged variant of the Node
Catalog contract (spec section 4.1). -/
inductive NodeResult where
  | advance : Option String → NodeResult
  | branch : String → String → NodeResult
  | suspend : WaitingContext → NodeResult
  | terminate : SessionStatus → NodeResult
  | fail : String → String → Bool → NodeResult

/-- Modelled from the spec: what one invocation of a node handler produces —
the side effects it would perform and its `NodeResult`. -/
structure NodeOutcome where
  effects : List Effect
  result : NodeResult

/-- The context a node handler executes against (spec section 4.1): session
variables, the triggering message, and the attempt number. -/
structure ExecContext where
  vars : List (String × VarValue)
  message : Option String
  attempt : Nat

/-- Modelled from the spec: the open Node Catalog registry — node handlers
keyed by the node definition (spec section 4.1). -/
abbrev Catalog := FlowNode → ExecContext → NodeOutcome

/-- A flow session row, from the `flowSessions` table
(`shared/db/schema/flows.ts`, lines 104-140); timestamps are naturals,
`flowVersion` is the version pinned at session start (spec section 3). -/
structure Session where
  sessionId : String
  flowId : Nat
  conversationId : Nat
  contactId : Nat
  status : SessionStatus
  currentNodeId : Option String
  triggerNodeId : String
  executionPath : List String
  nodeExecutionCount : Nat
  flowVersion : Nat
  vars : List (String × VarValue)
  waitingContext : Option WaitingContext
  expiresAt : Option Nat
  lastErrorMessage : Option String
  errorCount : Nat
  processedMessageIds : List String
deriving Repr

/-- A step execution record, from the `flowStepExecutions` table
(`shared/db/schema/flows.ts`, lines 235-252). -/
structure FlowStepExecution where
  sessionId : String
  nodeId : String
  nodeType : String
  stepOrder : Nat
  status : StepStatus
  errorMessage : Option String
  retryCount : Nat
  maxRetries : Nat
deriving DecidableEq, Repr

/-- The durable state one interpreter invocation works on: the session row,
its step execution records, and the log of Channel Sender / webhook
invocations performed so far. -/
structure EngineState where
  session : Session
  stepRecords : List FlowStepExecution
  sends : List Effect
deriving Repr

/-- Marks the session failed, recording the error message
(spec section 4.3, step 7). -/
def markFailed (st : EngineState) (msg : String) : EngineState :=
  { st with
    session := { st.session with
      status := .failed
      lastErrorMessage := some msg
      errorCount := st.session.errorCount + 1 } }

/-- Marks the session completed (spec section 4.3, step 5). -/
def markCompleted (st : EngineState) : EngineState :=
  { st with session := { st.session with status := .completed } }

/-- Marks the session timed out (spec section 4.3 and section 8 boundary). -/
def markTimeout (st : EngineState) : EngineState :=
  { st with session := { st.session with status := .timeout } }

/-- The idempotency check of spec sections 4.1 and 5: whether a completed
step execution record already exists for this (session id, node id,
attempt). -/
def hasCompletedRecord (records : List FlowStepExecution) (sid nid : String)
    (attempt : Nat) : Bool :=
  records.any (fun r =>
    r.sessionId == sid && r.nodeId == nid && r.retryCount == attempt &&
      r.status == .completed)

/-- Modelled from the spec: the Step Interpreter loop of section 4.3 — the
state machine core is not in the repository sources.  `fuel` is the
maximum-steps-per-invocation guard of section 4.3; `retry` is the retry
count of the current node invocation.  Each attempt creates a step
execution record; effects are skipped when a completed record already
exists for this (session id, node id, attempt). -/
def interpLoop (flow : FlowVersion) (catalog : Catalog) (msg : Option String) :
    Nat → Nat → EngineState → EngineState
  | 0, _, st => markFailed st "MaxStepsExceeded"
  | fuel + 1, retry, st =>
    match st.session.currentNodeId with
    | none => markCompleted st
    | some nid =>
      match flow.findNode nid with
      | none => markFailed st "GraphIntegrityError"
      | some node =>
        let out := catalog node
          { vars := st.session.vars, message := msg, attempt := retry }
        let newSends :=
          if hasCompletedRecord st.stepRecords st.session.sessionId nid retry
          then st.sends
          else st.sends ++ out.effects
        let baseRec : FlowStepExecution :=
          { sessionId := st.session.sessionId, nodeId := nid,
            nodeType := node.type, stepOrder := st.stepRecords.length,
            status := .running, errorMessage := none, retryCount := retry,
            maxRetries := node.maxRetries }
        match out.result with
        | .advance next =>
          let st1 : EngineState :=
            { session := { st.session with
                currentNodeId := next
                executionPath := st.session.executionPath ++ [nid]
                nodeExecutionCount := st.session.nodeExecutionCount + 1 }
              stepRecords := st.stepRecords ++ [{ baseRec with status := .completed }]
              sends := newSends }
          match next with
          | none => markCompleted st1
          | some _ => interpLoop flow catalog msg fuel 0 st1
        | .branch next _ =>
          let st1 : EngineState :=
            { session := { st.session with
                currentNodeId := some next
                executionPath := st.session.executionPath ++ [nid]
                nodeExecutionCount := st.session.nodeExecutionCount + 1 }
              stepRecords := st.stepRecords ++ [{ baseRec with status := .completed }]
              sends := newSends }
          interpLoop flow catalog msg fuel 0 st1
        | .suspend wctx =>
          { session := { st.session with
              status := .waiting
              waitingContext := some wctx
              expiresAt := wctx.timeoutAt }
            stepRecords := st.stepRecords ++ [{ baseRec with status := .waiting }]
            sends := newSends }
        | .terminate final =>
          { session := { st.session with status := final }
            stepRecords := st.stepRecords ++ [{ baseRec with status := .completed }]
            sends := newSends }
        | .fail _ m retryable =>
          if retryable && retry < node.maxRetries then
            interpLoop flow catalog msg fuel (retry + 1)
              { session := st.session
                stepRecords := st.stepRecords ++
                  [{ baseRec with status := .failed, errorMessage := some m }]
                sends := newSends }
          else
            markFailed
              { st with
                stepRecords := st.stepRecords ++
                  [{ baseRec with status := .failed, errorMessage := some m }]
                sends := newSends } m

/-- An external event addressed to a session (spec section 4.4): an inbound
message with its message id, a timer fire from the Follow-up Scheduler, or
a resume event. -/
inductive Event where
  | inbound : String → String → Event
  | timerFire : Event
  | resumeFire : Event
deriving DecidableEq, Repr

/-- Whether the session's `expiresAt` deadline has passed
(`flowSessions.expiresAt`, line 127). -/
def sessionExpired (now : Nat) (s : Session) : Bool :=
  match s.expiresAt with
  | some t => t < now
  | none => false

/-- Modelled from the spec: the Execution Scheduler's event delivery of
sections 4.3, 4.4 and 8 — not in the repository sources.  An event for a
terminal session is a no-op; a session whose deadline has passed
transitions to timeout without executing a node; a duplicate inbound
message id is dropped; otherwise the interpreter loop runs against the
pinned flow version, a missing version being a graph-integrity failure. -/
def deliverEvent (reg : List FlowRecord) (catalog : Catalog) (fuel now : Nat)
    (ev : Event) (st : EngineState) : EngineState :=
  if st.session.status.isTerminal then st
  else if sessionExpired now st.session then markTimeout st
  else
    match getFlowVersion reg st.session.flowId st.session.flowVersion with
    | none => markFailed st "GraphIntegrityError"
    | some flow =>
      match ev with
      | .inbound mid content =>
        if st.session.processedMessageIds.contains mid then st
        else
          interpLoop flow catalog (some content) fuel 0
            { st with session := { st.session with
                processedMessageIds := mid :: st.session.processedMessageIds } }
      | .timerFire => interpLoop flow catalog none fuel 0 st
      | .resumeFire => interpLoop flow catalog none fuel 0 st

/-- A step execution record as freshly inserted with the column defaults of
`flowStepExecutions` (`shared/db/schema/flows.ts`): `status` defaults to
`running` (line 245), `retryCount` to 0 (line 249) and `maxRetries` to 0
(line 250). -/
def mkDefaultStepExecution (sid nid ntype : String) (ord : Nat) :
    FlowStepExecution :=
  { sessionId := sid, nodeId := nid, nodeType := ntype, stepOrder := ord,
    status := .running, errorMessage := none, retryCount := 0,
    maxRetries := 0 }

/-- Follow-up schedule status, from the `followUpSchedules.status` column
enum (`shared/db/schema/flows.ts`, lines 282-284). -/
inductive FollowUpStatus where
  | scheduled
  | sent
  | failed
  | cancelled
  | expired
deriving DecidableEq, Repr

/-- The retry-relevant columns of the `followUpSchedules` table
(`shared/db/schema/flows.ts`, lines 254-299). -/
structure FollowUpSchedule where
  scheduleId : String
  sessionId : Option String
  nodeId : String
  status : FollowUpStatus
  retryCount : Nat
  maxRetries : Nat
deriving DecidableEq, Repr

/-- A follow-up schedule as freshly inserted with the column defaults of
`followUpSchedules`: `status` defaults to `scheduled` (line 284),
`retryCount` to 0 (line 287) and `maxRetries` to 3 (line 288). -/
def mkDefaultFollowUpSchedule (schedId nid : String) (sid : Option String) :
    FollowUpSchedule :=
  { scheduleId := schedId, sessionId := sid, nodeId := nid,
    status := .scheduled, retryCount := 0, maxRetries := 3 }

/-- Modelled from the spec: the engine state of a freshly created session —
status `active`, cursor at the entry node, empty path, pinned to the flow
version active at session start (spec sections 3 and 4.4). -/
def freshEngineState (reg : List FlowRecord) (sid : String)
    (fid cid ctid : Nat) (entry : String) : EngineState :=
  { session :=
      { sessionId := sid, flowId := fid, conversationId := cid,
        contactId := ctid, status := .active, currentNodeId := some entry,
        triggerNodeId := entry, executionPath := [], nodeExecutionCount := 0,
        flowVersion := activeVersion reg fid, vars := [],
        waitingContext := none, expiresAt := none, lastErrorMessage := none,
        errorCount := 0, processedMessageIds := [] }
    stepRecords := []
    sends := [] }

/-- Whether this engine state is an open (non-terminal) session of the given
(flow id, conversation id) pair (spec sections 3 and 8). -/
def openFor (fid cid : Nat) (es : EngineState) : Bool :=
  es.session.flowId == fid && es.session.conversationId == cid &&
    !es.session.status.isTerminal

/-- Modelled from the spec: session creation by the Execution Scheduler — a
session is created only when no open session exists for that
(flow, conversation) pair (spec section 3, lifecycle). -/
def createSession (reg : List FlowRecord) (sid : String) (fid cid ctid : Nat)
    (entry : String) (store : List EngineState) : List EngineState :=
  if store.any (openFor fid cid) then store
  else store ++ [freshEngineState reg sid fid cid ctid entry]

/-- Modelled from the spec: the operator cancellation of section 5 — a
non-terminal session is forced to `abandoned` without running further
nodes; a terminal session is untouched. -/
def cancelSession (s : Session) : Session :=
  if s.status.isTerminal then s else { s with status := .abandoned }

/-- Modelled from the spec: explicit operator pause (spec section 4.3,
active to paused). -/
def pauseSession (s : Session) : Session :=
  if s.status == .active then { s with status := .paused } else s

/-- Modelled from the spec: explicit operator resume (spec section 4.3,
paused back to active). -/
def resumeSession (s : Session) : Session :=
  if s.status == .paused then { s with status := .active } else s

/-- An operation on the session store: session creation, event delivery to a
session, or an operator cancel/pause/resume (spec sections 4.3, 4.4, 5). -/
inductive StoreOp where
  | create : String → Nat → Nat → Nat → String → StoreOp
  | deliver : String → Event → Nat → StoreOp
  | cancel : String → StoreOp
  | pause : String → StoreOp
  | resumeOp : String → StoreOp

/-- Applies a session transition to the one session of the store with the
given session id. -/
def mapSession (sid : String) (f : EngineState → EngineState)
    (store : List EngineState) : List EngineState :=
  store.map (fun es => if es.session.sessionId == sid then f es else es)

/-- Modelled from the spec: the effect of one store operation — creation
checks for an open session first; every other operation transitions at most
the one addressed session. -/
def applyOp (reg : List FlowRecord) (catalog : Catalog) (fuel : Nat) :
    StoreOp → List EngineState → List EngineState
  | .create sid fid cid ctid entry, store =>
    createSession reg sid fid cid ctid entry store
  | .deliver sid ev now, store =>
    mapSession sid (deliverEvent reg catalog fuel now ev) store
  | .cancel sid, store =>
    mapSession sid (fun es => { es with session := cancelSession es.session }) store
  | .pause sid, store =>
    mapSession sid (fun es => { es with session := pauseSession es.session }) store
  | .resumeOp sid, store =>
    mapSession sid (fun es => { es with session := resumeSession es.session }) store

/-- The single-open-session invariant of spec sections 3 and 8: at most one
session in a non-terminal status per (flow id, conversation id) pair. -/
def atMostOneOpen (store : List EngineState) : Prop :=
  ∀ fid cid : Nat, store.countP (openFor fid cid) ≤ 1

/-- Replaying an execution path against a pinned flow version: the sequence
of node types the path visits (spec sections 3 and 8). -/
def replayTypes (flow : FlowVersion) (path : List String) :
    List (Option String) :=
  path.map (fun nid => (flow.findNode nid).map FlowNode.type)

theorem interpLoop_ids (flow : FlowVersion) (catalog : Catalog)
    (msg : Option String) : ∀ (fuel retry : Nat) (st : EngineState),
    (interpLoop flow catalog msg fuel retry st).session.sessionId
        = st.session.sessionId ∧
    (interpLoop flow catalog msg fuel retry st).session.flowId
        = st.session.flowId ∧
    (interpLoop flow catalog msg fuel retry st).session.conversationId
        = st.session.conversationId ∧
    (interpLoop flow catalog msg fuel retry st).session.flowVersion
        = st.session.flowVersion := by
  intro fuel
  induction fuel with
  | zero => intro retry st; simp [interpLoop, markFailed]
  | succ n ih =>
    intro retry st
    rw [interpLoop]
    cases hcur : st.session.currentNodeId with
    | none => simp only [hcur]; simp [markCompleted]
    | some nid =>
      simp only [hcur]
      cases hnode : flow.findNode nid with
      | none => simp only [hnode]; simp [markFailed]
      | some node =>
        simp only [hnode]
        cases hres : (catalog node
            { vars := st.session.vars, message := msg, attempt := retry }).result with
        | advance next =>
          simp only [hres]
          cases next with
          | none => simp [markCompleted]
          | some nid2 => simpa using ih 0 _
        | branch next lbl => simp only [hres]; simpa using ih 0 _
        | suspend wctx => simp only [hres]; simp
        | terminate final => simp only [hres]; simp
        | fail k m retryable =>
          simp only [hres]
          by_cases hretry : (retryable && decide (retry < node.maxRetries)) = true
          · simp only [hretry, if_true]
            simpa using ih (retry + 1) _
          · simp only [hretry, if_false, Bool.false_eq_true]
            simp [markFailed]

theorem interpLoop_path (flow : FlowVersion) (catalog : Catalog)
    (msg : Option String) : ∀ (fuel retry : Nat) (st : EngineState),
    ∃ t : List String,
      (interpLoop flow catalog msg fuel retry st).session.executionPath
          = st.session.executionPath ++ t ∧
      (interpLoop flow catalog msg fuel retry st).session.nodeExecutionCount
          = st.session.nodeExecutionCount + t.length ∧
      ∀ nid ∈ t, (flow.findNode nid).isSome = true := by
  intro fuel
  induction fuel with
  | zero =>
    intro retry st
    exact ⟨[], by simp [interpLoop, markFailed]⟩
  | succ n ih =>
    intro retry st
    rw [interpLoop]
    cases hcur : st.session.currentNodeId with
    | none =>
      simp only [hcur]
      exact ⟨[], by simp [markCompleted]⟩
    | some nid =>
      simp only [hcur]
      cases hnode : flow.findNode nid with
      | none =>
        simp only [hnode]
        exact ⟨[], by simp [markFailed]⟩
      | some node =>
        simp only [hnode]
        cases hres : (catalog node
            { vars := st.session.vars, message := msg, attempt := retry }).result with
        | advance next =>
          simp only [hres]
          cases next with
          | none =>
            refine ⟨[nid], by simp [markCompleted], by simp [markCompleted], ?_⟩
            intro x hx
            simp only [List.mem_singleton] at hx
            subst hx
            simp [hnode]
          | some nid2 =>
            obtain ⟨t, h1, h2, h3⟩ := ih 0 _
            refine ⟨nid :: t, ?_, ?_, ?_⟩
            · rw [h1]; simp
            · rw [h2]; simp; omega
            · intro x hx
              rcases List.mem_cons.mp hx with hx | hx
              · subst hx; simp [hnode]
              · exact h3 x hx
        | branch next lbl =>
          simp only [hres]
          obtain ⟨t, h1, h2, h3⟩ := ih 0 _
          refine ⟨nid :: t, ?_, ?_, ?_⟩
          · rw [h1]; simp
          · rw [h2]; simp; omega
          · intro x hx
            rcases List.mem_cons.mp hx with hx | hx
            · subst hx; simp [hnode]
            · exact h3 x hx
        | suspend wctx =>
          simp only [hres]
          exact ⟨[], by simp⟩
        | terminate final =>
          simp only [hres]
          exact ⟨[], by simp⟩
        | fail k m retryable =>
          simp only [hres]
          by_cases hretry : (retryable && decide (retry < node.maxRetries)) = true
          · simp only [hretry, if_true]
            obtain ⟨t, h1, h2, h3⟩ := ih (retry + 1) _
            exact ⟨t, by simpa using h1, by simpa using h2, h3⟩
          · simp only [hretry, if_false, Bool.false_eq_true]
            exact ⟨[], by simp [markFailed]⟩

theorem deliverEvent_of_terminal (reg : List FlowRecord) (catalog : Catalog)
    (fuel now : Nat) (ev : Event) (st : EngineState)
    (h : st.session.status.isTerminal = true) :
    deliverEvent reg catalog fuel now ev st = st := by
  unfold deliverEvent
  simp [h]

theorem deliverEvent_ids (reg : List FlowRecord) (catalog : Catalog)
    (fuel now : Nat) (ev : Event) (st : EngineState) :
    (deliverEvent reg catalog fuel now ev st).session.sessionId
        = st.session.sessionId ∧
    (deliverEvent reg catalog fuel now ev st).session.flowId
        = st.session.flowId ∧
    (deliverEvent reg catalog fuel now ev st).session.conversationId
        = st.session.conversationId ∧
    (deliverEvent reg catalog fuel now ev st).session.flowVersion
        = st.session.flowVersion := by
  unfold deliverEvent
  by_cases ht : st.session.status.isTerminal = true
  · simp [ht]
  · simp only [ht, Bool.false_eq_true, if_false]
    by_cases he : sessionExpired now st.session = true
    · simp [he, markTimeout]
    · simp only [he, Bool.false_eq_true, if_false]
      cases hg : getFlowVersion reg st.session.flowId st.session.flowVersion with
      | none => simp [hg, markFailed]
      | some flow =>
        simp only [hg]
        cases ev with
        | inbound mid content =>
          by_cases hdup : mid ∈ st.session.processedMessageIds
          · simp [hdup]
          · simpa [hdup] using interpLoop_ids flow catalog (some content) fuel 0 _
        | timerFire => simpa using interpLoop_ids flow catalog none fuel 0 _
        | resumeFire => simpa using interpLoop_ids flow catalog none fuel 0 _

theorem deliverEvent_path (reg : List FlowRecord) (catalog : Catalog)
    (fuel now : Nat) (ev : Event) (st : EngineState) (flow : FlowVersion)
    (hflow : getFlowVersion reg st.session.flowId st.session.flowVersion
        = some flow) :
    ∃ t : List String,
      (deliverEvent reg catalog fuel now ev st).session.executionPath
          = st.session.executionPath ++ t ∧
      (deliverEvent reg catalog fuel now ev st).session.nodeExecutionCount
          = st.session.nodeExecutionCount + t.length ∧
      ∀ nid ∈ t, (flow.findNode nid).isSome = true := by
  unfold deliverEvent
  by_cases ht : st.session.status.isTerminal = true
  · exact ⟨[], by simp [ht]⟩
  · simp only [ht, Bool.false_eq_true, if_false]
    by_cases he : sessionExpired now st.session = true
    · exact ⟨[], by simp [he, markTimeout]⟩
    · simp only [he, Bool.false_eq_true, if_false, hflow]
      cases ev with
      | inbound mid content =>
        by_cases hdup : mid ∈ st.session.processedMessageIds
        · exact ⟨[], by simp [hdup]⟩
        · simpa [hdup] using interpLoop_path flow catalog (some content) fuel 0 _
      | timerFire => simpa using interpLoop_path flow catalog none fuel 0 _
      | resumeFire => simpa using interpLoop_path flow catalog none fuel 0 _

theorem find?_append_first {α : Type} (p : α → Bool) :
    ∀ (l1 : List α) (e : α) (l2 : List α),
    (∀ x ∈ l1, p x = false) → p e = true →
    (l1 ++ e :: l2).find? p = some e := by
  intro l1
  induction l1 with
  | nil =>
    intro e l2 _ he
    simp [List.find?, he]
  | cons a t ih =>
    intro e l2 h he
    have ha : p a = false := h a (by simp)
    simp only [List.cons_append, List.find?, ha]
    exact ih e l2 (fun x hx => h x (by simp [hx])) he

theorem countP_map_le {α : Type} (p : α → Bool) (f : α → α) :
    ∀ l : List α, (∀ x ∈ l, p (f x) = true → p x = true) →
      (l.map f).countP p ≤ l.countP p := by
  intro l
  induction l with
  | nil =>
    intro _
    rw [List.map_nil]
  | cons a t ih =>
    intro h
    have ht := ih (fun x hx => h x (List.mem_cons_of_mem a hx))
    rw [List.map_cons, List.countP_cons, List.countP_cons]
    cases hfa : p (f a) with
    | true =>
      have hpa : p a = true := h a (List.mem_cons_self a t) hfa
      rw [hpa, if_pos rfl]
      omega
    | false =>
      rw [if_neg Bool.false_ne_true]
      cases hpa : p a with
      | true => rw [if_pos rfl]; omega
      | false => rw [if_neg Bool.false_ne_true]; omega

theorem openFor_deliverEvent (reg : List FlowRecord) (catalog : Catalog)
    (fuel now : Nat) (ev : Event) (fid cid : Nat) (es : EngineState)
    (h : openFor fid cid (deliverEvent reg catalog fuel now ev es) = true) :
    openFor fid cid es = true := by
  by_cases ht : es.session.status.isTerminal = true
  · rwa [deliverEvent_of_terminal reg catalog fuel now ev es ht] at h
  · have hids := deliverEvent_ids reg catalog fuel now ev es
    unfold openFor at h ⊢
    rw [hids.2.1, hids.2.2.1] at h
    rw [Bool.and_eq_true, Bool.and_eq_true] at h
    rw [Bool.and_eq_true, Bool.and_eq_true]
    refine ⟨⟨h.1.1, h.1.2⟩, ?_⟩
    cases hx : es.session.status.isTerminal with
    | false => rfl
    | true => exact absurd hx ht

theorem openFor_cancel (fid cid : Nat) (es : EngineState)
    (h : openFor fid cid { es with session := cancelSession es.session } = true) :
    openFor fid cid es = true := by
  unfold cancelSession at h
  by_cases ht : es.session.status.isTerminal = true
  · simpa [ht] using h
  · rw [if_neg ht] at h
    unfold openFor at h
    simp [SessionStatus.isTerminal] at h

theorem openFor_pause (fid cid : Nat) (es : EngineState)
    (h : openFor fid cid { es with session := pauseSession es.session } = true) :
    openFor fid cid es = true := by
  unfold pauseSession at h
  by_cases ha : es.session.status == SessionStatus.active
  · rw [if_pos ha] at h
    unfold openFor at h ⊢
    rw [Bool.and_eq_true, Bool.and_eq_true] at h
    rw [Bool.and_eq_true, Bool.and_eq_true]
    refine ⟨⟨h.1.1, h.1.2⟩, ?_⟩
    rw [beq_iff_eq] at ha
    rw [ha]
    rfl
  · rwa [if_neg ha] at h

theorem openFor_resume (fid cid : Nat) (es : EngineState)
    (h : openFor fid cid { es with session := resumeSession es.session } = true) :
    openFor fid cid es = true := by
  unfold resumeSession at h
  by_cases ha : es.session.status == SessionStatus.paused
  · rw [if_pos ha] at h
    unfold openFor at h ⊢
    rw [Bool.and_eq_true, Bool.and_eq_true] at h
    rw [Bool.and_eq_true, Bool.and_eq_true]
    refine ⟨⟨h.1.1, h.1.2⟩, ?_⟩
    rw [beq_iff_eq] at ha
    rw [ha]
    rfl
  · rwa [if_neg ha] at h

theorem mapSession_atMostOneOpen (sid : String) (f : EngineState → EngineState)
    (store : List EngineState)
    (hf : ∀ (fid cid : Nat) (es : EngineState),
      openFor fid cid (f es) = true → openFor fid cid es = true)
    (h : atMostOneOpen store) : atMostOneOpen (mapSession sid f store) := by
  intro fid cid
  refine le_trans ?_ (h fid cid)
  unfold mapSession
  apply countP_map_le
  intro es _ hes
  by_cases hid : es.session.sessionId == sid
  · rw [if_pos hid] at hes
    exact hf fid cid es hes
  · rwa [if_neg hid] at hes

theorem createSession_atMostOneOpen (reg : List FlowRecord) (sid : String)
    (fid cid ctid : Nat) (entry : String) (store : List EngineState)
    (h : atMostOneOpen store) :
    atMostOneOpen (createSession reg sid fid cid ctid entry store) := by
  unfold createSession
  by_cases hany : store.any (openFor fid cid) = true
  · rwa [if_pos hany]
  · rw [if_neg hany]
    intro fid2 cid2
    rw [List.countP_append]
    by_cases hm : openFor fid2 cid2 (freshEngineState reg sid fid cid ctid entry) = true
    · have hkey : fid = fid2 ∧ cid = cid2 := by
        unfold openFor freshEngineState at hm
        rw [Bool.and_eq_true, Bool.and_eq_true] at hm
        exact ⟨beq_iff_eq.mp hm.1.1, beq_iff_eq.mp hm.1.2⟩
      obtain ⟨rfl, rfl⟩ := hkey
      have h0 : store.countP (openFor fid cid) = 0 := by
        rw [List.countP_eq_zero]
        intro es hes
        rw [Bool.not_eq_true] at hany
        have h2 := List.any_eq_false.mp hany es hes
        simp [h2]
      rw [h0]
      have h1 : List.countP (openFor fid cid)
          [freshEngineState reg sid fid cid ctid entry] ≤ 1 := by
        rw [List.countP_cons, List.countP_nil]
        split <;> omega
      omega
    · have h1 : List.countP (openFor fid2 cid2)
          [freshEngineState reg sid fid cid ctid entry] = 0 := by
        rw [List.countP_eq_zero]
        intro es hes
        rw [List.mem_singleton] at hes
        subst hes
        rwa [Bool.not_eq_true] at hm ⊢
      rw [h1]
      have := h fid2 cid2
      omega

theorem find?_append_of_some {α : Type} (p : α → Bool) :
    ∀ (l1 : List α) (r : α) (l2 : List α), l1.find? p = some r →
      (l1 ++ l2).find? p = some r := by
  intro l1
  induction l1 with
  | nil =>
    intro r l2 h
    rw [List.find?_nil] at h
    exact absurd h (by simp)
  | cons a t ih =>
    intro r l2 h
    rw [List.cons_append]
    cases hpa : p a with
    | true =>
      rw [List.find?_cons_of_pos _ hpa] at h
      rw [List.find?_cons_of_pos _ hpa]
      exact h
    | false =>
      have hpa2 : ¬p a = true := by simp [hpa]
      rw [List.find?_cons_of_neg _ hpa2] at h
      rw [List.find?_cons_of_neg _ hpa2]
      exact ih r l2 h

/-- A node catalog whose handler always fails with a retryable
`ExternalServiceError`, as in scenario D of spec section 8. -/
def failCatalog : Catalog := fun _ _ =>
  { effects := [],
    result := .fail "ExternalServiceError" "external service failed" true }

/-- The one-node flow of scenario D: a node with a configured retry bound of
2 (spec section 8, scenario D). -/
def scenarioDGraph : FlowVersion :=
  { nodes := [{ id := "n1", type := "api_call", maxRetries := 2 }],
    edges := [], entryNodeId := "n1" }

/-- The flow registry holding scenario D's flow. -/
def scenarioDReg : List FlowRecord :=
  [{ flowId := 1, version := 1, graph := scenarioDGraph }]

/-- The fresh session of scenario D. -/
def scenarioDStart : EngineState := freshEngineState scenarioDReg "s1" 1 1 1 "n1"

/-- The engine state after delivering one inbound message to scenario D's
session: three failing attempts, then a failed session. -/
def scenarioDFinal : EngineState :=
  deliverEvent scenarioDReg failCatalog 10 0 (.inbound "m1" "hello") scenarioDStart

/-- The flow of a zero-retry node: `maxRetries` left at the
`flowStepExecutions.maxRetries` column default of 0. -/
def zeroRetryGraph : FlowVersion :=
  { nodes := [{ id := "z1", type := "api_call", maxRetries := 0 }],
    edges := [], entryNodeId := "z1" }

/-- The flow registry holding the zero-retry flow. -/
def zeroRetryReg : List FlowRecord :=
  [{ flowId := 2, version := 1, graph := zeroRetryGraph }]

/-- A fresh session positioned at the zero-retry node. -/
def zeroRetryState : EngineState := freshEngineState zeroRetryReg "zs" 2 1 1 "z1"

/-- A two-node demonstration flow: a start node advancing to an end node. -/
def demoGraph : FlowVersion :=
  { nodes := [{ id := "start", type := "start", maxRetries := 0 },
              { id := "fin", type := "end", maxRetries := 0 }],
    edges := [{ source := "start", cond := none, target := "fin" }],
    entryNodeId := "start" }

/-- The flow registry holding the demonstration flow. -/
def demoReg : List FlowRecord := [{ flowId := 7, version := 1, graph := demoGraph }]

/-- A catalog for the demonstration flow: the start node sends one message
and advances; the end node terminates. -/
def demoCatalog : Catalog := fun node _ =>
  if node.id == "start" then
    { effects := [.send 1 "Hi"], result := .advance (some "fin") }
  else { effects := [], result := .advance none }

/-- A fresh demonstration session. -/
def demoState : EngineState := freshEngineState demoReg "sess1" 7 1 1 "start"

/-- The demonstration session in the terminal status `completed`. -/
def demoCompleted : EngineState :=
  { demoState with session := { demoState.session with status := .completed } }

/-- The demonstration session with a deadline already in the past of
`now = 10`. -/
def demoExpired : EngineState :=
  { demoState with session := { demoState.session with expiresAt := some 5 } }

/-- The demonstration session after having processed message id `m1`. -/
def demoProcessed : EngineState :=
  { demoState with
    session := { demoState.session with processedMessageIds := ["m1"] } }

/-- C1: Idempotence of event redelivery — delivering an inbound event whose
message id the session has already processed performs no additional Channel
Sender invocation, creates no step execution record, and leaves the session
cursor and execution path unchanged, the duplicate being dropped by the
Execution Scheduler and the step-execution-record check guarding any
re-fired effect. -/
theorem event_redelivery_idempotent (reg : List FlowRecord)
    (catalog : Catalog) (fuel now : Nat) (mid content : String)
    (st : EngineState) (h : mid ∈ st.session.processedMessageIds) :
    (deliverEvent reg catalog fuel now (.inbound mid content) st).sends
        = st.sends ∧
    (deliverEvent reg catalog fuel now (.inbound mid content) st).session.currentNodeId
        = st.session.currentNodeId ∧
    (deliverEvent reg catalog fuel now (.inbound mid content) st).stepRecords
        = st.stepRecords ∧
    (deliverEvent reg catalog fuel now (.inbound mid content) st).session.executionPath
        = st.session.executionPath := by
  unfold deliverEvent
  by_cases ht : st.session.status.isTerminal = true
  · simp [ht]
  · simp only [ht, Bool.false_eq_true, if_false]
    by_cases he : sessionExpired now st.session = true
    · simp [he, markTimeout]
    · simp only [he, Bool.false_eq_true, if_false]
      cases hg : getFlowVersion reg st.session.flowId st.session.flowVersion with
      | none => simp [markFailed]
      | some flow => simp [h]

/-- Witness for C1 at a concrete session that already processed message id
`m1`. -/
theorem event_redelivery_idempotent_witness :
    (deliverEvent demoReg demoCatalog 5 0 (.inbound "m1" "again") demoProcessed).sends
        = demoProcessed.sends ∧
    (deliverEvent demoReg demoCatalog 5 0 (.inbound "m1" "again") demoProcessed).session.currentNodeId
        = demoProcessed.session.currentNodeId ∧
    (deliverEvent demoReg demoCatalog 5 0 (.inbound "m1" "again") demoProcessed).stepRecords
        = demoProcessed.stepRecords ∧
    (deliverEvent demoReg demoCatalog 5 0 (.inbound "m1" "again") demoProcessed).session.executionPath
        = demoProcessed.session.executionPath :=
  event_redelivery_idempotent demoReg demoCatalog 5 0 "m1" "again"
    demoProcessed (by decide)

/-- C5: Terminal states are absorbing — a session whose status is completed,
failed, abandoned or timeout is left untouched by every event (inbound
message, timer fire or resume): event delivery is a no-op. -/
theorem terminal_states_absorbing (reg : List FlowRecord) (catalog : Catalog)
    (fuel now : Nat) (st : EngineState)
    (h : st.session.status.isTerminal = true) :
    ∀ ev : Event, deliverEvent reg catalog fuel now ev st = st :=
  fun ev => deliverEvent_of_terminal reg catalog fuel now ev st h

/-- Witness for C5 at a concrete completed session. -/
theorem terminal_states_absorbing_witness :
    deliverEvent demoReg demoCatalog 5 0 (.inbound "m9" "hello") demoCompleted
      = demoCompleted :=
  terminal_states_absorbing demoReg demoCatalog 5 0 demoCompleted rfl
    (.inbound "m9" "hello")

/-- C9: Expiry boundary — a non-terminal session whose expiresAt deadline
has passed transitions to status timeout on the first event of any kind and
executes no node: no step execution record is created, the cursor, the
execution path and the Channel Sender log are unchanged. -/
theorem expiry_boundary_timeout (reg : List FlowRecord) (catalog : Catalog)
    (fuel now : Nat) (ev : Event) (st : EngineState)
    (hterm : st.session.status.isTerminal = false)
    (hexp : sessionExpired now st.session = true) :
    deliverEvent reg catalog fuel now ev st = markTimeout st ∧
    (deliverEvent reg catalog fuel now ev st).session.status = .timeout ∧
    (deliverEvent reg catalog fuel now ev st).stepRecords = st.stepRecords ∧
    (deliverEvent reg catalog fuel now ev st).session.currentNodeId
        = st.session.currentNodeId ∧
    (deliverEvent reg catalog fuel now ev st).sends = st.sends ∧
    (deliverEvent reg catalog fuel now ev st).session.nodeExecutionCount
        = st.session.nodeExecutionCount := by
  unfold deliverEvent
  simp [hterm, hexp, markTimeout]

/-- Witness for C9 at a concrete active session whose deadline 5 has passed
at `now = 10`. -/
theorem expiry_boundary_timeout_witness :
    deliverEvent demoReg demoCatalog 5 10 Event.timerFire demoExpired
        = markTimeout demoExpired ∧
    (deliverEvent demoReg demoCatalog 5 10 Event.timerFire demoExpired).session.status
        = .timeout ∧
    (deliverEvent demoReg demoCatalog 5 10 Event.timerFire demoExpired).stepRecords
        = demoExpired.stepRecords ∧
    (deliverEvent demoReg demoCatalog 5 10 Event.timerFire demoExpired).session.currentNodeId
        = demoExpired.session.currentNodeId ∧
    (deliverEvent demoReg demoCatalog 5 10 Event.timerFire demoExpired).sends
        = demoExpired.sends ∧
    (deliverEvent demoReg demoCatalog 5 10 Event.timerFire demoExpired).session.nodeExecutionCount
        = demoExpired.session.nodeExecutionCount :=
  expiry_boundary_timeout demoReg demoCatalog 5 10 Event.timerFire demoExpired
    rfl (by decide)

/-- C2: Single open session per conversation — every store operation
(session creation, event delivery, operator cancel/pause/resume) preserves
the invariant that at most one session per (flow id, conversation id) pair
is in a non-terminal status. -/
theorem single_open_session_invariant (reg : List FlowRecord)
    (catalog : Catalog) (fuel : Nat) (op : StoreOp) (store : List EngineState)
    (h : atMostOneOpen store) :
    atMostOneOpen (applyOp reg catalog fuel op store) := by
  cases op with
  | create sid fid cid ctid entry =>
    exact createSession_atMostOneOpen reg sid fid cid ctid entry store h
  | deliver sid ev now =>
    exact mapSession_atMostOneOpen sid _ store
      (fun fid cid es => openFor_deliverEvent reg catalog fuel now ev fid cid es) h
  | cancel sid =>
    exact mapSession_atMostOneOpen sid _ store
      (fun fid cid es => openFor_cancel fid cid es) h
  | pause sid =>
    exact mapSession_atMostOneOpen sid _ store
      (fun fid cid es => openFor_pause fid cid es) h
  | resumeOp sid =>
    exact mapSession_atMostOneOpen sid _ store
      (fun fid cid es => openFor_resume fid cid es) h

/-- Witness for C2: creating a session in the empty store preserves the
invariant. -/
theorem single_open_session_invariant_witness :
    atMostOneOpen (applyOp demoReg demoCatalog 5
      (.create "sess1" 7 1 1 "start") []) :=
  single_open_session_invariant demoReg demoCatalog 5
    (.create "sess1" 7 1 1 "start") []
    (by intro fid cid; simp [List.countP_nil])

/-- C4: Execution-path audit — event delivery only appends to the execution
path, the path length stays equal to the session's node execution count,
every appended node id resolves in the pinned flow version, and replaying
the path through the pinned flow version decomposes as the replay of the
old path followed by the replay of the appended suffix. -/
theorem execution_path_audit (reg : List FlowRecord) (catalog : Catalog)
    (fuel now : Nat) (ev : Event) (st : EngineState) (flow : FlowVersion)
    (hflow : getFlowVersion reg st.session.flowId st.session.flowVersion
        = some flow)
    (hlen : st.session.executionPath.length = st.session.nodeExecutionCount)
    (hres : ∀ nid ∈ st.session.executionPath,
        (flow.findNode nid).isSome = true) :
    ∃ t : List String,
      (deliverEvent reg catalog fuel now ev st).session.executionPath
          = st.session.executionPath ++ t ∧
      (deliverEvent reg catalog fuel now ev st).session.executionPath.length
          = (deliverEvent reg catalog fuel now ev st).session.nodeExecutionCount ∧
      (∀ nid ∈ (deliverEvent reg catalog fuel now ev st).session.executionPath,
          (flow.findNode nid).isSome = true) ∧
      replayTypes flow (deliverEvent reg catalog fuel now ev st).session.executionPath
          = replayTypes flow st.session.executionPath ++ replayTypes flow t := by
  obtain ⟨t, h1, h2, h3⟩ := deliverEvent_path reg catalog fuel now ev st flow hflow
  refine ⟨t, h1, ?_, ?_, ?_⟩
  · rw [h1, h2, List.length_append, hlen]
  · intro nid hnid
    rw [h1] at hnid
    rcases List.mem_append.mp hnid with hx | hx
    · exact hres nid hx
    · exact h3 nid hx
  · rw [h1]
    unfold replayTypes
    rw [List.map_append]

/-- Witness for C4 at the fresh demonstration session. -/
theorem execution_path_audit_witness :
    ∃ t : List String,
      (deliverEvent demoReg demoCatalog 5 0 (.inbound "m1" "hello") demoState).session.executionPath
          = demoState.session.executionPath ++ t ∧
      (deliverEvent demoReg demoCatalog 5 0 (.inbound "m1" "hello") demoState).session.executionPath.length
          = (deliverEvent demoReg demoCatalog 5 0 (.inbound "m1" "hello") demoState).session.nodeExecutionCount ∧
      (∀ nid ∈ (deliverEvent demoReg demoCatalog 5 0 (.inbound "m1" "hello") demoState).session.executionPath,
          (demoGraph.findNode nid).isSome = true) ∧
      replayTypes demoGraph (deliverEvent demoReg demoCatalog 5 0 (.inbound "m1" "hello") demoState).session.executionPath
          = replayTypes demoGraph demoState.session.executionPath
              ++ replayTypes demoGraph t :=
  execution_path_audit demoReg demoCatalog 5 0 (.inbound "m1" "hello")
    demoState demoGraph (by decide) rfl
    (by intro nid hnid; simp [demoState, freshEngineState] at hnid)

/-- C6: Flow-version pinning — event delivery never changes the session's
pinned flow version (nor its flow id), and publishing a new flow version
never changes what `getFlowVersion` returns for an already-published
(flow id, version) pair, so a running session always resolves its node
definitions against the one version active when it started. -/
theorem flow_version_pinning :
    (∀ (reg : List FlowRecord) (catalog : Catalog) (fuel now : Nat)
        (ev : Event) (st : EngineState),
        (deliverEvent reg catalog fuel now ev st).session.flowVersion
            = st.session.flowVersion ∧
        (deliverEvent reg catalog fuel now ev st).session.flowId
            = st.session.flowId) ∧
    (∀ (reg : List FlowRecord) (fid v : Nat) (g : FlowVersion)
        (fid2 : Nat) (g2 : FlowVersion),
        getFlowVersion reg fid v = some g →
        getFlowVersion (publishVersion reg fid2 g2) fid v = some g) := by
  constructor
  · intro reg catalog fuel now ev st
    have hids := deliverEvent_ids reg catalog fuel now ev st
    exact ⟨hids.2.2.2, hids.2.1⟩
  · intro reg fid v g fid2 g2 hfound
    unfold getFlowVersion at hfound ⊢
    unfold publishVersion
    cases hf : reg.find? (fun r => r.flowId == fid && r.version == v) with
    | none =>
      rw [hf] at hfound
      exact absurd hfound (by simp)
    | some r =>
      rw [hf] at hfound
      rw [find?_append_of_some _ reg r _ hf]
      exact hfound

/-- Witness for C6: the demonstration session keeps its pinned version
across a delivery, and publishing a new version leaves version 1 of flow 7
unchanged. -/
theorem flow_version_pinning_witness :
    (deliverEvent demoReg demoCatalog 5 0 Event.timerFire demoState).session.flowVersion
        = demoState.session.flowVersion ∧
    getFlowVersion (publishVersion demoReg 7 zeroRetryGraph) 7 1
        = some demoGraph :=
  ⟨(flow_version_pinning.1 demoReg demoCatalog 5 0 Event.timerFire demoState).1,
   flow_version_pinning.2 demoReg 7 1 demoGraph 7 zeroRetryGraph (by decide)⟩

/-- C3: Retry-then-fail semantics — when a node execution yields a
retryable Fail below the retry bound, the interpreter appends a failed
record for this attempt and re-invokes the same node (same session state)
with the retry count incremented; otherwise it marks the step execution
record and the session failed, recording the error message; and scenario D
(a handler failing three times with a retry bound of 2) ends with a failed
session and exactly 3 step execution records for that node id. -/
theorem retry_then_fail_semantics :
    (∀ (flow : FlowVersion) (catalog : Catalog) (msg : Option String)
        (fuel retry : Nat) (st : EngineState) (nid : String) (node : FlowNode)
        (k m : String),
        st.session.currentNodeId = some nid →
        flow.findNode nid = some node →
        (catalog node { vars := st.session.vars, message := msg, attempt := retry }).result
            = .fail k m true →
        retry < node.maxRetries →
        ∃ st2 : EngineState,
          interpLoop flow catalog msg (fuel + 1) retry st
              = interpLoop flow catalog msg fuel (retry + 1) st2 ∧
          st2.session = st.session ∧
          ∃ r : FlowStepExecution,
            st2.stepRecords = st.stepRecords ++ [r] ∧
            r.nodeId = nid ∧ r.status = .failed ∧ r.retryCount = retry ∧
            r.errorMessage = some m) ∧
    (∀ (flow : FlowVersion) (catalog : Catalog) (msg : Option String)
        (fuel retry : Nat) (st : EngineState) (nid : String) (node : FlowNode)
        (k m : String) (rb : Bool),
        st.session.currentNodeId = some nid →
        flow.findNode nid = some node →
        (catalog node { vars := st.session.vars, message := msg, attempt := retry }).result
            = .fail k m rb →
        (rb && decide (retry < node.maxRetries)) = false →
        (interpLoop flow catalog msg (fuel + 1) retry st).session.status
            = .failed ∧
        (interpLoop flow catalog msg (fuel + 1) retry st).session.lastErrorMessage
            = some m ∧
        ∃ r : FlowStepExecution,
          (interpLoop flow catalog msg (fuel + 1) retry st).stepRecords
              = st.stepRecords ++ [r] ∧
          r.nodeId = nid ∧ r.status = .failed ∧ r.retryCount = retry ∧
          r.errorMessage = some m) ∧
    (scenarioDFinal.session.status = .failed ∧
     scenarioDFinal.stepRecords.countP (fun r => r.nodeId == "n1") = 3 ∧
     scenarioDFinal.session.lastErrorMessage = some "external service failed") := by
  refine ⟨?_, ?_, by decide, by decide, by decide⟩
  · intro flow catalog msg fuel retry st nid node k m hcur hnode hres hretry
    rw [interpLoop]
    simp only [hcur, hnode, hres]
    have hcond : (true && decide (retry < node.maxRetries)) = true := by
      simp [hretry]
    simp only [hcond, if_true]
    exact ⟨_, rfl, rfl, _, rfl, rfl, rfl, rfl, rfl⟩
  · intro flow catalog msg fuel retry st nid node k m rb hcur hnode hres hcond
    rw [interpLoop]
    simp only [hcur, hnode, hres, hcond, if_false, Bool.false_eq_true]
    refine ⟨by simp [markFailed], by simp [markFailed],
      { sessionId := st.session.sessionId, nodeId := nid,
        nodeType := node.type, stepOrder := st.stepRecords.length,
        status := .failed, errorMessage := some m, retryCount := retry,
        maxRetries := node.maxRetries },
      by simp [markFailed], rfl, rfl, rfl, rfl⟩

/-- Witness for C3: the retry branch at attempt 0 of scenario D's node, and
the exhausted branch at attempt 2. -/
theorem retry_then_fail_semantics_witness :
    (∃ st2 : EngineState,
       interpLoop scenarioDGraph failCatalog (some "hello") 6 0 scenarioDStart
           = interpLoop scenarioDGraph failCatalog (some "hello") 5 1 st2 ∧
       st2.session = scenarioDStart.session ∧
       ∃ r : FlowStepExecution,
         st2.stepRecords = scenarioDStart.stepRecords ++ [r] ∧
         r.nodeId = "n1" ∧ r.status = .failed ∧ r.retryCount = 0 ∧
         r.errorMessage = some "external service failed") ∧
    ((interpLoop scenarioDGraph failCatalog (some "hello") 6 2 scenarioDStart).session.status
        = .failed ∧
     (interpLoop scenarioDGraph failCatalog (some "hello") 6 2 scenarioDStart).session.lastErrorMessage
        = some "external service failed" ∧
     ∃ r : FlowStepExecution,
       (interpLoop scenarioDGraph failCatalog (some "hello") 6 2 scenarioDStart).stepRecords
           = scenarioDStart.stepRecords ++ [r] ∧
       r.nodeId = "n1" ∧ r.status = .failed ∧ r.retryCount = 2 ∧
       r.errorMessage = some "external service failed") :=
  ⟨retry_then_fail_semantics.1 scenarioDGraph failCatalog (some "hello") 5 0
      scenarioDStart "n1" { id := "n1", type := "api_call", maxRetries := 2 }
      "ExternalServiceError" "external service failed" rfl (by decide) rfl
      (by decide),
   retry_then_fail_semantics.2.1 scenarioDGraph failCatalog (some "hello") 5 2
      scenarioDStart "n1" { id := "n1", type := "api_call", maxRetries := 2 }
      "ExternalServiceError" "external service failed" true rfl (by decide) rfl
      (by decide)⟩

/-- C10: Implicit zero-retry default — a step execution record created with
the schema's column defaults has retryCount 0 and maxRetries 0, a node
whose configuration leaves the retry bound at that default is never
retried (its first failure immediately fails the session), while a
follow-up schedule created with its column defaults has maxRetries 3. -/
theorem zero_retry_default :
    (∀ (sid nid ntype : String) (ord : Nat),
        (mkDefaultStepExecution sid nid ntype ord).retryCount = 0 ∧
        (mkDefaultStepExecution sid nid ntype ord).maxRetries = 0 ∧
        (mkDefaultStepExecution sid nid ntype ord).status = .running) ∧
    (∀ (flow : FlowVersion) (catalog : Catalog) (msg : Option String)
        (fuel : Nat) (st : EngineState) (nid : String) (node : FlowNode)
        (k m : String) (rb : Bool),
        st.session.currentNodeId = some nid →
        flow.findNode nid = some node →
        node.maxRetries = 0 →
        (catalog node { vars := st.session.vars, message := msg, attempt := 0 }).result
            = .fail k m rb →
        (interpLoop flow catalog msg (fuel + 1) 0 st).session.status = .failed ∧
        (interpLoop flow catalog msg (fuel + 1) 0 st).session.lastErrorMessage
            = some m) ∧
    (∀ (schedId nid : String) (sid : Option String),
        (mkDefaultFollowUpSchedule schedId nid sid).maxRetries = 3 ∧
        (mkDefaultFollowUpSchedule schedId nid sid).retryCount = 0) := by
  refine ⟨fun sid nid ntype ord => ⟨rfl, rfl, rfl⟩, ?_,
    fun schedId nid sid => ⟨rfl, rfl⟩⟩
  intro flow catalog msg fuel st nid node k m rb hcur hnode hmax hres
  rw [interpLoop]
  simp only [hcur, hnode, hres]
  have hcond : (rb && decide (0 < node.maxRetries)) = false := by
    rw [hmax]
    simp
  simp only [hcond, if_false, Bool.false_eq_true]
  exact ⟨by simp [markFailed], by simp [markFailed]⟩

/-- Witness for C10: the zero-retry node fails the session on its first
failure. -/
theorem zero_retry_default_witness :
    (mkDefaultStepExecution "s" "n" "message" 0).retryCount = 0 ∧
    (mkDefaultStepExecution "s" "n" "message" 0).maxRetries = 0 ∧
    (interpLoop zeroRetryGraph failCatalog (some "hi") 4 0 zeroRetryState).session.status
        = .failed ∧
    (mkDefaultFollowUpSchedule "f1" "n" none).maxRetries = 3 :=
  ⟨(zero_retry_default.1 "s" "n" "message" 0).1,
   (zero_retry_default.1 "s" "n" "message" 0).2.1,
   (zero_retry_default.2.1 zeroRetryGraph failCatalog (some "hi") 3
      zeroRetryState "z1" { id := "z1", type := "api_call", maxRetries := 0 }
      "ExternalServiceError" "external service failed" true rfl (by decide)
      rfl rfl).1,
   (zero_retry_default.2.2 "f1" "n" none).1⟩

/-- C7: Condition evaluation order and undefined handling — outgoing edges
are evaluated in their declared order and the first matching edge wins; the
default/else edge matches last (only when no conditional edge matches); an
unresolvable variable reference resolves to the undefined sentinel rather
than crashing; a condition over the undefined sentinel is a non-match
unless it explicitly tests for absence, in which case it matches. -/
theorem condition_eval_order_undefined :
    (∀ (vars : List (String × VarValue)) (pre post : List FlowEdge)
        (e : FlowEdge),
        (∀ e2 ∈ pre, edgeMatches vars e2 = false) →
        edgeMatches vars e = true →
        pickEdge vars (pre ++ e :: post) = some e.target) ∧
    (∀ (vars : List (String × VarValue)) (edges : List FlowEdge)
        (d : FlowEdge),
        (∀ e2 ∈ edges, edgeMatches vars e2 = false) →
        edges.find? (fun e2 => e2.cond.isNone) = some d →
        pickEdge vars edges = some d.target) ∧
    (∀ (vars : List (String × VarValue)) (name : String),
        (∀ p ∈ vars, p.1 ≠ name) → resolveVar vars name = none) ∧
    (∀ c : Cond, c.testsAbsence = false → evalCondValue c none = false) ∧
    (∀ c : Cond, c.testsAbsence = true → evalCondValue c none = true) := by
  refine ⟨?_, ?_, ?_, ?_, ?_⟩
  · intro vars pre post e hpre he
    unfold pickEdge
    rw [find?_append_first (edgeMatches vars) pre e post hpre he]
  · intro vars edges d hall hd
    unfold pickEdge
    have hnone : edges.find? (edgeMatches vars) = none :=
      List.find?_eq_none.mpr (fun x hx => by simp [hall x hx])
    rw [hnone, hd]
  · intro vars name hne
    unfold resolveVar
    have hnone : vars.find? (fun p => p.1 == name) = none :=
      List.find?_eq_none.mpr (fun x hx => by simp [hne x hx])
    rw [hnone]
  · intro c hc
    cases c with
    | eqStr a b => rfl
    | eqNum a b => rfl
    | containsStr a b => rfl
    | numGt a b => rfl
    | numLt a b => rfl
    | varExists a => rfl
    | varNotExists a => exact absurd hc (by simp [Cond.testsAbsence])
  · intro c hc
    cases c with
    | eqStr a b => exact absurd hc (by simp [Cond.testsAbsence])
    | eqNum a b => exact absurd hc (by simp [Cond.testsAbsence])
    | containsStr a b => exact absurd hc (by simp [Cond.testsAbsence])
    | numGt a b => exact absurd hc (by simp [Cond.testsAbsence])
    | numLt a b => exact absurd hc (by simp [Cond.testsAbsence])
    | varExists a => exact absurd hc (by simp [Cond.testsAbsence])
    | varNotExists a => rfl

/-- Witness for C7 at concrete edges: the first matching conditional edge
wins past a non-matching edge and past an earlier-declared default edge;
the default edge is taken when nothing matches; a missing variable resolves
to the sentinel; an equality over the sentinel is a non-match while an
absence test over it matches. -/
theorem condition_eval_order_undefined_witness :
    pickEdge [("x", .str "yes")]
        ([{ source := "c", cond := some (.eqStr "x" "no"), target := "t1" },
          { source := "c", cond := none, target := "tDefault" }] ++
          { source := "c", cond := some (.varExists "x"), target := "t2" } ::
          []) = some "t2" ∧
    pickEdge []
        [{ source := "c", cond := some (.eqStr "x" "no"), target := "t1" },
         { source := "c", cond := none, target := "tDefault" }]
        = some "tDefault" ∧
    resolveVar [("a", .str "v")] "b" = none ∧
    evalCondValue (.eqStr "x" "yes") none = false ∧
    evalCondValue (.varNotExists "x") none = true :=
  ⟨condition_eval_order_undefined.1 [("x", .str "yes")]
      [{ source := "c", cond := some (.eqStr "x" "no"), target := "t1" },
       { source := "c", cond := none, target := "tDefault" }] []
      { source := "c", cond := some (.varExists "x"), target := "t2" }
      (by decide) (by decide),
   condition_eval_order_undefined.2.1 []
      [{ source := "c", cond := some (.eqStr "x" "no"), target := "t1" },
       { source := "c", cond := none, target := "tDefault" }]
      { source := "c", cond := none, target := "tDefault" }
      (by decide) (by decide),
   condition_eval_order_undefined.2.2.1 [("a", .str "v")] "b"
      (by decide),
   condition_eval_order_undefined.2.2.2.1 (.eqStr "x" "yes") rfl,
   condition_eval_order_undefined.2.2.2.2 (.varNotExists "x") rfl⟩

/-- A session variable at the engine boundary: name, typed value, declared
type and scope, as stored per row in `flowSessionVariables`
(`shared/db/schema/flows.ts`, lines 181-193). -/
structure SessionVariable where
  variableKey : String
  variableValue : VarValue
  variableType : VarType
  scope : VarScope
deriving Repr

/-- A row of the `flowSessionVariables` table with its jsonb `variableValue`
column in serialized form. -/
structure VariableRow where
  sessionId : String
  variableKey : String
  variableValue : JsonValue
  variableType : VarType
  scope : VarScope
deriving Repr

/-- Modelled from the spec: serializing one session variable to its storage
row (the storage layer itself is not in the repository sources). -/
def serializeVariable (sid : String) (v : SessionVariable) : VariableRow :=
  { sessionId := sid, variableKey := v.variableKey,
    variableValue := encodeValue v.variableValue,
    variableType := v.variableType, scope := v.scope }

/-- Modelled from the spec: serializing a session's variable mapping to its
storage rows. -/
def serializeVars (sid : String) (vs : List SessionVariable) :
    List VariableRow :=
  vs.map (serializeVariable sid)

/-- Modelled from the spec: reloading one stored row into a session
variable; fails when the jsonb document is not a representable value. -/
def loadVariable (r : VariableRow) : Option SessionVariable :=
  match decodeValue r.variableValue with
  | some v => some { variableKey := r.variableKey, variableValue := v,
                     variableType := r.variableType, scope := r.scope }
  | none => none

/-- Modelled from the spec: reloading a list of stored rows. -/
def loadVars : List VariableRow → Option (List SessionVariable)
  | [] => some []
  | r :: rest =>
    match loadVariable r, loadVars rest with
    | some v, some vs => some (v :: vs)
    | _, _ => none

/-- C8: Session-variable round-trip — serializing a session's variable
mapping (including nested object- and array-typed values) to storage rows
and reloading it reproduces the original names, values, declared types and
scopes exactly. -/
theorem session_variables_roundtrip (sid : String)
    (vs : List SessionVariable) :
    loadVars (serializeVars sid vs) = some vs := by
  induction vs with
  | nil => rfl
  | cons v rest ih =>
    unfold serializeVars at ih ⊢
    rw [List.map_cons]
    unfold loadVars
    rw [ih]
    unfold loadVariable serializeVariable
    simp [decodeValue_encodeValue]

end FlowEngine
